import Mathlib

/-!
# Secret publication: `pkg/cmd/secret/set/http.go`

A shallow embedding of `putSecret`, `putOrgSecret`, `putRepoSecret` and
`mapRepoNameToID`, with the network client as a pair of pure oracles and every
request the code issues recorded in a trace.

Conventions
* Go `string` is `String`; Go's `<` on strings (bytewise) agrees with the
  code-point order of `String` on valid UTF-8.
* Go `int` identifiers are only copied, never computed with, so they are `Int`.
* A Go `map` is a key-unique association list; the order of the list is the
  (unspecified) iteration order of `range`, so a statement for every
  `GraphqlResult` covers every iteration order.
* A run-time abort (nil dereference, index out of range) is an explicit outcome.
-/

namespace SecretSet

/-! ## Data model -/

/-- The struct `SecretPayload` of http.go (lines 15-20). A nil and an empty slice are both `[]`. -/
structure SecretPayload where
  EncryptedValue : String
  Visibility : String
  Repositories : List Int
  KeyID : String
deriving DecidableEq, Repr

/-- Modelled from the spec: `api.GraphQLError` is declared outside the files at hand; the spec
describes a structured error as a list of `{type, path}` entries. `Typ` is the Go field `Type`. -/
structure GraphQLError where
  Typ : String
  Path : List String
deriving DecidableEq, Repr

/-- Modelled from the spec: the error values the two client calls can return. The first
constructor is `*api.GraphQLErrorResponse` (the only dynamic type the type assertion on line 85
accepts), the second any other error; `text` is what the value's `Error()` method prints. -/
inductive ApiError where
  | graphQLErrorResponse (Errors : List GraphQLError) (text : String)
  | other (text : String)
deriving DecidableEq, Repr

/-- Text of `Error()` for a client error. -/
def ApiError.Error : ApiError → String
  | .graphQLErrorResponse _ text => text
  | .other text => text

/-- Go `error` values that occur in http.go: a client error, `fmt.Errorf` without `%w`
(a plain message), and `fmt.Errorf` with `%w` (a message and the wrapped cause). -/
inductive GoError where
  | api (e : ApiError)
  | errorString (text : String)
  | wrapError (text : String) (cause : GoError)
deriving DecidableEq, Repr

/-- Text of `Error()`. -/
def GoError.Error : GoError → String
  | .api e => e.Error
  | .errorString text => text
  | .wrapError text _ => text

/-- Result of `errors.Unwrap`. -/
def GoError.Unwrap : GoError → Option GoError
  | .wrapError _ cause => some cause
  | _ => none

/-- Run-time aborts of the Go program. -/
inductive RuntimePanic where
  | nilDereference
  | indexOutOfRange
deriving DecidableEq, Repr

/-- How a call ends: a value with a nil error, a non-nil error, or an abort. -/
inductive Outcome (α : Type) where
  | ok (v : α)
  | error (e : GoError)
  | panic (p : RuntimePanic)
deriving DecidableEq, Repr

/-- The local `graphqlResult` of `mapRepoNameToID`: `map[string]*struct{DatabaseID int}`.
A value `none` is a nil pointer (JSON `null`). -/
structure GraphqlResult where
  entries : List (String × Option Int)
  nodup : (entries.map Prod.fst).Nodup

/-- Go map indexing `graphqlResult[k]`: the stored pointer, or nil for a missing key. -/
def GraphqlResult.index (m : GraphqlResult) (k : String) : Option Int :=
  match m.entries.lookup k with
  | some p => p
  | none => none

/-- Keys in iteration order (`for k := range graphqlResult`). -/
def GraphqlResult.keys (m : GraphqlResult) : List String :=
  m.entries.map Prod.fst

/-- What `client.GraphQL(host, query, nil, &graphqlResult)` leaves behind: the decoded map and
the returned error. -/
structure GraphQLResponse where
  data : GraphqlResult
  err : Option ApiError

/-- Requests sent through the client. The body of a REST request is the JSON encoding of a
`SecretPayload`; it is recorded as the payload itself. -/
inductive Request where
  | graphQL (host query : String)
  | rest (host method path : String) (body : SecretPayload)
deriving DecidableEq, Repr

/-- The `*api.Client` collaborator: answers of the remote side to the two kinds of request. -/
structure Client where
  GraphQL : String → String → GraphQLResponse
  REST : String → String → String → SecretPayload → Option ApiError

/-- A finished call: the requests it issued, in order, and how it ended. -/
structure Run (α : Type) where
  trace : List Request
  outcome : Outcome α

/-- Modelled from the spec: the constant `shared.Selected` is declared outside the files at hand;
the spec gives the visibility tag as "selected". -/
def Selected : String := "selected"

/-- The fields of `SetOptions` that `putOrgSecret` reads (lines 33-35, 40). -/
structure SetOptions where
  SecretName : String
  OrgName : String
  Visibility : String
  RepositoryNames : List String
deriving DecidableEq, Repr

/-- The field of `shared.PubKey` that http.go reads. -/
structure PubKey where
  ID : String
deriving DecidableEq, Repr

/-- The two methods of `ghrepo.Interface` used through `FullName` plus `RepoHost`. -/
structure Repo where
  RepoOwner : String
  RepoName : String
  RepoHost : String
deriving DecidableEq, Repr

/-- Modelled from the spec: `ghrepo.FullName` is defined outside the files at hand; the spec's
path `repos/{owner}/{name}/...` gives owner, a slash, name. -/
def FullName (repo : Repo) : String :=
  repo.RepoOwner ++ "/" ++ repo.RepoName

/-! ## Formatting -/

/-- The verb `%03d` of `fmt.Sprintf` on a non-negative index: the decimal digits, padded on the
left with zeros to a width of at least 3. -/
def fmtD03 (i : Nat) : String :=
  let ds := Nat.toDigits 10 i
  String.mk (List.replicate (3 - ds.length) '0' ++ ds)

/-- The alias `repo_%03d` of line 71. -/
def repoAlias (i : Nat) : String :=
  "repo_" ++ fmtD03 i

/-- The verb `%v` on a `[]string` (line 42): the elements separated by blanks, in brackets. -/
def fmtStrings (xs : List String) : String :=
  "[" ++ " ".intercalate xs ++ "]"

/-- One aliased sub-query (lines 70-74). `q` is the verb `%q` (Go's `strconv.Quote`). -/
def subQuery (q : String → String) (i : Nat) (orgName repoName : String) : String :=
  "\n\t\t\t" ++ repoAlias i ++ ": repository(owner: " ++ q orgName ++ ", name: " ++ q repoName
    ++ ") \x7b\n\t\t\t\tdatabaseId\n\t\t\t\x7d\n\t\t"

/-- The loop of lines 69-75, started at index `i`. -/
def buildQueries (q : String → String) (orgName : String) : Nat → List String → List String
  | _, [] => []
  | i, repoName :: rest => subQuery q i orgName repoName :: buildQueries q orgName (i + 1) rest

/-- The query text of line 77. -/
def buildQuery (q : String → String) (orgName : String) (repositoryNames : List String) : String :=
  "query MapRepositoryNames \x7b " ++ String.join (buildQueries q orgName 0 repositoryNames)
    ++ " \x7d"

/-! ## `mapRepoNameToID` -/

/-- The return statement of line 89 for the entry `ge`: the error text is built from the owner
and `ge.Path[0]`; indexing an empty path aborts. -/
def notFoundReturn (orgName : String) (ge : GraphQLError) : Outcome (List Int) :=
  match ge.Path with
  | [] => .panic .indexOutOfRange
  | p :: _ => .error (.errorString ("could not find " ++ orgName ++ "/" ++ p))

/-- The loop of lines 87-91 over the entries of a structured error: `some` when it returns from
the function (at the first entry of type NOT_FOUND), `none` when it falls through. -/
def notFoundLoop (orgName : String) : List GraphQLError → Option (Outcome (List Int))
  | [] => none
  | ge :: rest =>
    if ge.Typ = "NOT_FOUND" then some (notFoundReturn orgName ge)
    else notFoundLoop orgName rest

/-- Go's `a < b` on strings, character by character. Go compares the UTF-8 bytes, which orders
strings exactly as their code points do. -/
def lessChars : List Char → List Char → Bool
  | _, [] => false
  | [], _ :: _ => true
  | a :: as, b :: bs =>
    if a.toNat < b.toNat then true
    else if b.toNat < a.toNat then false
    else lessChars as bs

/-- Go's `a < b` on strings. -/
def stringLess (a b : String) : Bool :=
  lessChars a.data b.data

/-- The order `sort.Strings` sorts by: `a` may stand before `b` when `b < a` is false. -/
def keyLE (a b : String) : Prop :=
  stringLess b a = false

instance : DecidableRel keyLE :=
  fun a b => inferInstanceAs (Decidable (stringLess b a = false))

/-- The call `sort.Strings(repoKeys)`: ascending order by `stringLess`. Map keys are pairwise
distinct, so the sorted sequence does not depend on the sorting algorithm. -/
def sortStrings (keys : List String) : List String :=
  keys.insertionSort keyLE

/-- The loop of lines 104-106 from index `i` on: `result[i] = graphqlResult[k].DatabaseID`.
The right-hand side is evaluated first (nil dereference), then the store is bounds-checked. -/
def fillResult (m : GraphqlResult) : List String → Nat → List Int → Outcome (List Int)
  | [], _, result => .ok result
  | k :: ks, i, result =>
    match m.index k with
    | none => .panic .nilDereference
    | some id =>
      if i < result.length then fillResult m ks (i + 1) (result.set i id)
      else .panic .indexOutOfRange

/-- Lines 85-108: what `mapRepoNameToID` does with the answer of the remote call, for
`n = len(repositoryNames)`. -/
def handleResponse (orgName : String) (n : Nat) (resp : GraphQLResponse) : Outcome (List Int) :=
  let wrapped (e : ApiError) : Outcome (List Int) :=
    .error (.wrapError ("failed to look up repositories: " ++ e.Error) (.api e))
  match resp.err with
  | some (.graphQLErrorResponse errs text) =>
    match notFoundLoop orgName errs with
    | some out => out
    | none => wrapped (.graphQLErrorResponse errs text)
  | some e => wrapped e
  | none => fillResult resp.data (sortStrings resp.data.keys) 0 (List.replicate n 0)

/-- The function `mapRepoNameToID` (lines 67-109). -/
def mapRepoNameToID (q : String → String) (client : Client) (host orgName : String)
    (repositoryNames : List String) : Run (List Int) :=
  let query := buildQuery q orgName repositoryNames
  { trace := [Request.graphQL host query]
    outcome := handleResponse orgName repositoryNames.length (client.GraphQL host query) }

/-! ## Publishing -/

/-- The function `putSecret` (lines 22-30). `json.Marshal` cannot fail on a `SecretPayload`
(strings and a slice of ints), so the only error is the one of the REST call, returned as is. -/
def putSecret (client : Client) (host path : String) (payload : SecretPayload) : Run Unit :=
  { trace := [Request.rest host "PUT" path payload]
    outcome :=
      match client.REST host "PUT" path payload with
      | some e => .error (.api e)
      | none => .ok () }

/-- The payload and the path that `putOrgSecret` builds on lines 46-52. -/
def orgPayload (pk : PubKey) (opts : SetOptions) (eValue : String) (repositoryIDs : List Int) :
    SecretPayload :=
  { EncryptedValue := eValue, KeyID := pk.ID, Repositories := repositoryIDs,
    Visibility := opts.Visibility }

/-- The path of line 52. -/
def orgPath (opts : SetOptions) : String :=
  "orgs/" ++ opts.OrgName ++ "/actions/secrets/" ++ opts.SecretName

/-- The function `putOrgSecret` (lines 32-55). -/
def putOrgSecret (q : String → String) (client : Client) (host : String) (pk : PubKey)
    (opts : SetOptions) (eValue : String) : Run Unit :=
  if opts.OrgName ≠ "" ∧ opts.Visibility = Selected then
    let r := mapRepoNameToID q client host opts.OrgName opts.RepositoryNames
    match r.outcome with
    | .ok repositoryIDs =>
      let w := putSecret client host (orgPath opts) (orgPayload pk opts eValue repositoryIDs)
      { trace := r.trace ++ w.trace, outcome := w.outcome }
    | .error err =>
      { trace := r.trace
        outcome := .error (.wrapError ("failed to look up IDs for repositories "
          ++ fmtStrings opts.RepositoryNames ++ ": " ++ err.Error) err) }
    | .panic p => { trace := r.trace, outcome := .panic p }
  else
    putSecret client host (orgPath opts) (orgPayload pk opts eValue [])

/-- The payload of lines 58-61. -/
def repoPayload (pk : PubKey) (eValue : String) : SecretPayload :=
  { EncryptedValue := eValue, KeyID := pk.ID, Repositories := [], Visibility := "" }

/-- The path of line 62. -/
def repoPath (repo : Repo) (secretName : String) : String :=
  "repos/" ++ FullName repo ++ "/actions/secrets/" ++ secretName

/-- The function `putRepoSecret` (lines 57-64). -/
def putRepoSecret (client : Client) (pk : PubKey) (repo : Repo) (secretName eValue : String) :
    Run Unit :=
  putSecret client repo.RepoHost (repoPath repo secretName) (repoPayload pk eValue)

/-! ## Reading a trace -/

/-- The request is a resolution (query) request. -/
def isResolution : Request → Bool
  | .graphQL _ _ => true
  | .rest _ _ _ _ => false

/-- The request is a write request. -/
def isWrite : Request → Bool
  | .graphQL _ _ => false
  | .rest _ _ _ _ => true

/-- The payloads submitted by the write requests of a trace, in order. -/
def payloads : List Request → List SecretPayload
  | [] => []
  | .graphQL _ _ :: rest => payloads rest
  | .rest _ _ _ body :: rest => body :: payloads rest

/-- The paths of the write requests of a trace, in order. -/
def writePaths : List Request → List String
  | [] => []
  | .graphQL _ _ :: rest => writePaths rest
  | .rest _ _ path _ :: rest => path :: writePaths rest

/-! ## Concrete inputs -/

/-- A remote side that answers every query with three identifiers under the aliases of the
indices 0, 1, 2, in an order that is not the input order, and accepts every write. -/
def exampleClient : Client :=
  { GraphQL := fun _ _ =>
      { data := ⟨[("repo_001", some 7), ("repo_002", some 42), ("repo_000", some 11)], by decide⟩
        err := none }
    REST := fun _ _ _ _ => none }

/-- A list of 1001 repository names. -/
def bigNames : List String :=
  (List.range 1001).map (fun i => "r" ++ Nat.repr i)

/-- A text mentions an item when the item occurs in it as a contiguous piece. -/
def mentions (text item : String) : Prop :=
  item.data <:+: text.data

instance (text item : String) : Decidable (mentions text item) :=
  inferInstanceAs (Decidable (item.data <:+: text.data))

/-- The spec's scenario for names repo-a, repo-b: the first alias is null, the second resolves to
99, and the call returns a structured error with one NOT_FOUND entry whose path is the first
alias. -/
def notFoundClient : Client :=
  { GraphQL := fun _ _ =>
      { data := ⟨[("repo_000", none), ("repo_001", some 99)], by decide⟩
        err := some (.graphQLErrorResponse [⟨"NOT_FOUND", ["repo_000"]⟩]
          "GraphQL error: Could not resolve to a Repository with the name 'acme/repo-a'.") }
    REST := fun _ _ _ _ => none }

/-- As `notFoundClient`, with both aliases null and a NOT_FOUND entry for each. -/
def twoNotFoundClient : Client :=
  { GraphQL := fun _ _ =>
      { data := ⟨[("repo_000", none), ("repo_001", none)], by decide⟩
        err := some (.graphQLErrorResponse
          [⟨"NOT_FOUND", ["repo_000"]⟩, ⟨"NOT_FOUND", ["repo_001"]⟩]
          "GraphQL error: Could not resolve to a Repository with the name 'acme/repo-a'.") }
    REST := fun _ _ _ _ => none }

/-- A response without error in which the alias of index 0 is missing. -/
def absentClient : Client :=
  { GraphQL := fun _ _ => { data := ⟨[("repo_001", some 99)], by decide⟩, err := none }
    REST := fun _ _ _ _ => none }

/-- A response without error in which the alias of index 0 is null. -/
def nullClient : Client :=
  { GraphQL := fun _ _ =>
      { data := ⟨[("repo_000", none), ("repo_001", some 99)], by decide⟩, err := none }
    REST := fun _ _ _ _ => none }

/-- A remote call that fails below the GraphQL layer. -/
def transportClient : Client :=
  { GraphQL := fun _ _ => { data := ⟨[], by decide⟩, err := some (.other "unexpected EOF") }
    REST := fun _ _ _ _ => none }

/-- A remote side that answers every query with an empty map and no error. -/
def emptyClient : Client :=
  { GraphQL := fun _ _ => { data := ⟨[], by decide⟩, err := none }
    REST := fun _ _ _ _ => none }

/-- For each index i below 1001, the identifier i under the alias of i. -/
def bigEntries : List (String × Option Int) :=
  (List.range 1001).map (fun i => (repoAlias i, some (i : Int)))

set_option maxRecDepth 100000 in
/-- A response map for 1001 names with the entries `bigEntries`. The keys are pairwise distinct
because the digits after `repo_` read back as the index. -/
def bigResult : GraphqlResult :=
  { entries := bigEntries
    nodup := by
      unfold bigEntries
      have key : ∀ i, i < 1001 →
          ((repoAlias i).data.drop 5).foldl (fun n c => n * 10 + (c.toNat - 48)) 0 = i := by
        decide
      rw [List.map_map]
      refine List.Nodup.map_on ?_ (List.nodup_range 1001)
      intro a ha b hb hab
      have ha' := key a (List.mem_range.mp ha)
      have hb' := key b (List.mem_range.mp hb)
      simp only [Function.comp] at hab
      rw [hab] at ha'
      exact ha'.symm.trans hb' }

/-- A remote side that answers every query with `bigResult` and no error. -/
def bigClient : Client :=
  { GraphQL := fun _ _ => { data := bigResult, err := none }
    REST := fun _ _ _ _ => none }

/-- The keys of `bigResult` in ascending order: the alias of 1000 stands between those of 100
and 101. -/
def bigSorted : List String :=
  (List.range 101).map repoAlias ++ repoAlias 1000 :: (List.range' 101 899).map repoAlias

/-- Check that each string is below its successor in Go's string order. -/
def isAscending : List String → Bool
  | a :: b :: rest => stringLess a b && isAscending (b :: rest)
  | _ => true

/-! ## The order on keys -/

theorem lessChars_irrefl (a : List Char) : lessChars a a = false := by
  induction a with
  | nil => rfl
  | cons c cs ih => simp [lessChars, ih]

theorem lessChars_asymm : ∀ a b, lessChars a b = true → lessChars b a = false := by
  intro a
  induction a with
  | nil => intro b h; cases b <;> simp_all [lessChars]
  | cons c cs ih =>
    intro b h
    cases b with
    | nil => simp [lessChars] at h
    | cons d ds =>
      simp only [lessChars] at h ⊢
      split_ifs at h ⊢ <;> first | rfl | omega | exact ih _ h

theorem lessChars_trans : ∀ a b c, lessChars a b = true → lessChars b c = true →
    lessChars a c = true := by
  intro a
  induction a with
  | nil =>
    intro b c h1 h2
    cases c with
    | nil => cases b <;> simp [lessChars] at h2
    | cons e es => simp [lessChars]
  | cons x xs ih =>
    intro b c h1 h2
    cases b with
    | nil => simp [lessChars] at h1
    | cons y ys =>
      cases c with
      | nil => simp [lessChars] at h2
      | cons z zs =>
        simp only [lessChars] at h1 h2 ⊢
        split_ifs at h1 h2 ⊢ <;> first | rfl | omega | exact ih _ _ h1 h2

theorem lessChars_connected : ∀ a b, lessChars a b = false → lessChars b a = false → a = b := by
  intro a
  induction a with
  | nil => intro b h1 h2; cases b <;> simp_all [lessChars]
  | cons x xs ih =>
    intro b h1 h2
    cases b with
    | nil => simp [lessChars] at h2
    | cons y ys =>
      simp only [lessChars] at h1 h2
      by_cases h3 : x.toNat < y.toNat
      · simp [h3] at h1
      · by_cases h4 : y.toNat < x.toNat
        · simp [h4] at h2
        · simp only [h3, h4, if_false] at h1 h2
          have hxy : x = y := by
            apply Char.ext
            apply UInt32.ext
            have := Nat.le_antisymm (Nat.le_of_not_lt h4) (Nat.le_of_not_lt h3)
            simpa [Char.toNat] using this
          rw [hxy, ih ys h1 h2]

theorem keyLE_total : IsTotal String keyLE where
  total a b := by
    unfold keyLE stringLess
    cases h : lessChars b.data a.data
    · exact Or.inl rfl
    · exact Or.inr (lessChars_asymm _ _ h)

theorem keyLE_antisymm : IsAntisymm String keyLE where
  antisymm a b h1 h2 := by
    unfold keyLE stringLess at h1 h2
    have := lessChars_connected _ _ h2 h1
    exact String.ext this

theorem keyLE_trans : IsTrans String keyLE where
  trans a b c h1 h2 := by
    unfold keyLE stringLess at *
    cases h : lessChars c.data a.data
    · rfl
    · exfalso
      cases hab : lessChars a.data b.data
      · have e1 := lessChars_connected _ _ hab h1
        rw [e1] at h
        rw [h] at h2; cases h2
      · have := lessChars_trans _ _ _ h hab
        rw [this] at h2; cases h2

/-! ## Aliases and sorting -/

theorem digitChar_toNat : ∀ d, d < 10 → (Nat.digitChar d).toNat = 48 + d := by decide

set_option maxRecDepth 100000 in
theorem fmtD03_lt_1000 : ∀ i, i < 1000 →
    fmtD03 i = String.mk [Nat.digitChar (i / 100), Nat.digitChar (i / 10 % 10), Nat.digitChar (i % 10)] := by
  decide

theorem repoAlias_data (i : Nat) (h : i < 1000) :
    (repoAlias i).data = ['r', 'e', 'p', 'o', '_', Nat.digitChar (i / 100),
      Nat.digitChar (i / 10 % 10), Nat.digitChar (i % 10)] := by
  unfold repoAlias
  rw [fmtD03_lt_1000 i h]
  rfl

theorem repoAlias_lt (i j : Nat) (hij : i < j) (hj : j < 1000) :
    stringLess (repoAlias i) (repoAlias j) = true := by
  unfold stringLess
  rw [repoAlias_data i (by omega), repoAlias_data j hj]
  have a2 := digitChar_toNat (i / 100) (by omega)
  have a1 := digitChar_toNat (i / 10 % 10) (by omega)
  have a0 := digitChar_toNat (i % 10) (by omega)
  have b2 := digitChar_toNat (j / 100) (by omega)
  have b1 := digitChar_toNat (j / 10 % 10) (by omega)
  have b0 := digitChar_toNat (j % 10) (by omega)
  simp only [lessChars, a2, a1, a0, b2, b1, b0, Nat.lt_irrefl, if_false]
  split_ifs <;> first | rfl | omega

theorem sortStrings_sorted (keys : List String) : (sortStrings keys).Sorted keyLE := by
  haveI := keyLE_total
  haveI := keyLE_trans
  exact List.sorted_insertionSort keyLE keys

theorem sortStrings_perm (keys : List String) : (sortStrings keys).Perm keys :=
  List.perm_insertionSort keyLE keys

theorem sortStrings_eq_of_sorted (keys sorted : List String) (hp : keys.Perm sorted)
    (hs : sorted.Sorted keyLE) : sortStrings keys = sorted := by
  haveI := keyLE_antisymm
  exact List.eq_of_perm_of_sorted ((sortStrings_perm keys).trans hp) (sortStrings_sorted keys) hs

theorem aliases_sorted (n : Nat) (hn : n ≤ 1000) :
    ((List.range n).map repoAlias).Sorted keyLE := by
  unfold List.Sorted
  rw [List.pairwise_map]
  refine (List.pairwise_lt_range n).imp_of_mem ?_
  intro a b ha hb hab
  have hb' : b < n := List.mem_range.mp hb
  have := repoAlias_lt a b hab (by omega)
  unfold keyLE
  unfold stringLess at *
  exact lessChars_asymm _ _ this

/-! ## The store loop -/

theorem fillResult_length (m : GraphqlResult) : ∀ (ks : List String) (i : Nat) (result r : List Int),
    fillResult m ks i result = .ok r → r.length = result.length := by
  intro ks
  induction ks with
  | nil =>
    intro i result r h
    simp only [fillResult, Outcome.ok.injEq] at h
    rw [← h]
  | cons k ks ih =>
    intro i result r h
    simp only [fillResult] at h
    split at h
    · cases h
    · split_ifs at h
      have := ih _ _ _ h
      simpa using this

theorem fillResult_ok (m : GraphqlResult) : ∀ (ks : List String) (i : Nat) (result vals : List Int),
    ks.map m.index = vals.map some → i + ks.length ≤ result.length →
    fillResult m ks i result = .ok (result.take i ++ vals ++ result.drop (i + ks.length)) := by
  intro ks
  induction ks with
  | nil =>
    intro i result vals hv _
    cases vals with
    | nil => simp [fillResult]
    | cons v vs => simp at hv
  | cons k ks ih =>
    intro i result vals hv hlen
    cases vals with
    | nil => simp at hv
    | cons v vs =>
      simp only [List.map_cons, List.cons.injEq] at hv
      simp only [List.length_cons] at hlen
      have hi : i < result.length := by omega
      simp only [fillResult, hv.1, hi, if_true]
      rw [ih (i + 1) (result.set i v) vs hv.2 (by simp; omega)]
      congr 1
      rw [List.set_eq_take_append_cons_drop, if_pos hi]
      have h1 : (List.take i result).length = i := by simp; omega
      rw [List.take_append_eq_append_take, List.drop_append_eq_append_drop]
      simp [h1, List.take_take, List.drop_drop]
      have h2 : i + 1 + ks.length - i = ks.length + 1 := by omega
      have h3 : List.drop (i + 1 + ks.length) (List.take i result) = [] :=
        List.drop_eq_nil_of_le (by omega)
      rw [h2, h3, List.drop_succ_cons, List.drop_drop, List.nil_append]
      congr 1
      omega

/-! ## Order recovery -/

theorem handleResponse_sorted_keys (orgName : String) (n : Nat) (resp : GraphQLResponse)
    (sorted : List String) (herr : resp.err = none) (hlen : sorted.length = n)
    (hperm : resp.data.keys.Perm sorted) (hs : sorted.Sorted keyLE)
    (hnn : ∀ k ∈ resp.data.keys, resp.data.index k ≠ none) :
    handleResponse orgName n resp
      = .ok (sorted.map (fun k => (resp.data.index k).getD 0)) := by
  unfold handleResponse
  simp only [herr]
  rw [sortStrings_eq_of_sorted _ _ hperm hs]
  have hv : sorted.map resp.data.index
      = (sorted.map (fun k => (resp.data.index k).getD 0)).map some := by
    rw [List.map_map]
    apply List.map_congr_left
    intro k hk
    have := hnn k (hperm.mem_iff.mpr hk)
    cases h : resp.data.index k with
    | none => exact absurd h this
    | some v => simp [h]
  rw [fillResult_ok resp.data sorted 0 (List.replicate n 0) _ hv (by simp [hlen])]
  simp [hlen]

theorem buildQueries_length (q : String → String) (orgName : String) :
    ∀ (names : List String) (start : Nat),
      (buildQueries q orgName start names).length = names.length := by
  intro names
  induction names with
  | nil => intro start; rfl
  | cons n rest ih =>
    intro start
    simp only [buildQueries, List.length_cons, ih]

theorem buildQueries_getElem? (q : String → String) (orgName : String) :
    ∀ (names : List String) (start i : Nat) (name : String), names[i]? = some name →
      (buildQueries q orgName start names)[i]? = some (subQuery q (start + i) orgName name) := by
  intro names
  induction names with
  | nil => intro start i name h; simp at h
  | cons n rest ih =>
    intro start i name h
    cases i with
    | zero =>
      simp only [List.getElem?_cons_zero, Option.some.injEq] at h
      simp only [buildQueries, List.getElem?_cons_zero, Nat.add_zero, h]
    | succ i =>
      simp only [List.getElem?_cons_succ] at h
      simp only [buildQueries, List.getElem?_cons_succ]
      rw [ih (start + 1) i name h]
      congr 2
      omega

/-- C10: for indices i < j < 1000 the alias of i is strictly below the alias of j in Go's string
order and differs from it; hence for at most 1000 names (duplicates allowed) and a response
without error whose keys are exactly the aliases of the indices, all with non-null values,
`mapRepoNameToID` returns a list of the same length whose entry i is the identifier stored under
the alias of i. These aliases are the ones `mapRepoNameToID` builds: the single request it sends
carries the query text of line 77 around one sub-query per name, and the sub-query at position i
is the text of lines 70-74 with the alias of i, the owner and the name at input index i, so equal
names at different positions get different aliases. -/
theorem alias_order_recovers_input_order :
    (∀ i j : Nat, i < j → j < 1000 →
      stringLess (repoAlias i) (repoAlias j) = true ∧ repoAlias i ≠ repoAlias j) ∧
    (∀ (q : String → String) (client : Client) (host orgName : String) (names : List String),
      names.length ≤ 1000 →
      (client.GraphQL host (buildQuery q orgName names)).err = none →
      (client.GraphQL host (buildQuery q orgName names)).data.keys.Perm
        ((List.range names.length).map repoAlias) →
      (∀ k ∈ (client.GraphQL host (buildQuery q orgName names)).data.keys,
        (client.GraphQL host (buildQuery q orgName names)).data.index k ≠ none) →
      ∃ result, (mapRepoNameToID q client host orgName names).outcome = .ok result ∧
        result.length = names.length ∧
        ∀ i, i < names.length →
          result[i]? = (client.GraphQL host (buildQuery q orgName names)).data.index
            (repoAlias i)) ∧
    (∀ (q : String → String) (client : Client) (host orgName : String) (names : List String),
      ∃ subs : List String,
        (mapRepoNameToID q client host orgName names).trace
          = [.graphQL host (buildQuery q orgName names)] ∧
        buildQuery q orgName names
          = "query MapRepositoryNames \x7b " ++ String.join subs ++ " \x7d" ∧
        subs.length = names.length ∧
        ∀ i name, names[i]? = some name →
          subs[i]? = some ("\n\t\t\t" ++ repoAlias i ++ ": repository(owner: " ++ q orgName
            ++ ", name: " ++ q name ++ ") \x7b\n\t\t\t\tdatabaseId\n\t\t\t\x7d\n\t\t")) := by
  refine ⟨?_, ?_, ?_⟩
  · intro i j hij hj
    have h := repoAlias_lt i j hij hj
    refine ⟨h, ?_⟩
    intro e
    rw [e] at h
    unfold stringLess at h
    rw [lessChars_irrefl] at h
    cases h
  · intro q client host orgName names hn herr hperm hnn
    refine ⟨_, handleResponse_sorted_keys orgName names.length _ _ herr (by simp) hperm
      (aliases_sorted _ hn) hnn, by simp, ?_⟩
    intro i hi
    have hk : repoAlias i ∈ (client.GraphQL host (buildQuery q orgName names)).data.keys :=
      hperm.mem_iff.mpr (List.mem_map.mpr ⟨i, List.mem_range.mpr hi, rfl⟩)
    have := hnn _ hk
    cases h : (client.GraphQL host (buildQuery q orgName names)).data.index (repoAlias i) with
    | none => exact absurd h this
    | some v => simp [hi, h]
  · intro q client host orgName names
    refine ⟨buildQueries q orgName 0 names, rfl, rfl, buildQueries_length q orgName names 0, ?_⟩
    intro i name h
    rw [buildQueries_getElem? q orgName names 0 i name h, Nat.zero_add]
    rfl

theorem alias_order_recovers_input_order_witness :
    (stringLess (repoAlias 7) (repoAlias 12) = true ∧ repoAlias 7 ≠ repoAlias 12) ∧
    (∃ result, (mapRepoNameToID id exampleClient "github.com" "acme" ["a", "b", "a"]).outcome
        = .ok result ∧ result.length = 3 ∧
      ∀ i, i < 3 → result[i]? = (exampleClient.GraphQL "github.com"
        (buildQuery id "acme" ["a", "b", "a"])).data.index (repoAlias i)) ∧
    (∃ subs : List String,
      (mapRepoNameToID id exampleClient "github.com" "acme" ["a", "b", "a"]).trace
        = [.graphQL "github.com" (buildQuery id "acme" ["a", "b", "a"])] ∧
      buildQuery id "acme" ["a", "b", "a"]
        = "query MapRepositoryNames \x7b " ++ String.join subs ++ " \x7d" ∧
      subs.length = 3 ∧
      ∀ i name, ["a", "b", "a"][i]? = some name →
        subs[i]? = some ("\n\t\t\t" ++ repoAlias i ++ ": repository(owner: " ++ "acme"
          ++ ", name: " ++ name ++ ") \x7b\n\t\t\t\tdatabaseId\n\t\t\t\x7d\n\t\t")) ∧
    (mapRepoNameToID id exampleClient "github.com" "acme" ["a", "b", "a"]).outcome
      = .ok [11, 7, 42] ∧
    (mapRepoNameToID id exampleClient "github.com" "acme" ["a", "b", "a"]).trace
      = [.graphQL "github.com" ("query MapRepositoryNames \x7b "
          ++ "\n\t\t\trepo_000: repository(owner: acme, name: a) "
          ++ "\x7b\n\t\t\t\tdatabaseId\n\t\t\t\x7d\n\t\t"
          ++ "\n\t\t\trepo_001: repository(owner: acme, name: b) "
          ++ "\x7b\n\t\t\t\tdatabaseId\n\t\t\t\x7d\n\t\t"
          ++ "\n\t\t\trepo_002: repository(owner: acme, name: a) "
          ++ "\x7b\n\t\t\t\tdatabaseId\n\t\t\t\x7d\n\t\t"
          ++ " \x7d")] :=
  ⟨alias_order_recovers_input_order.1 7 12 (by decide) (by decide),
   alias_order_recovers_input_order.2.1 id exampleClient "github.com" "acme" ["a", "b", "a"]
     (by decide) rfl (by decide) (by decide),
   alias_order_recovers_input_order.2.2 id exampleClient "github.com" "acme" ["a", "b", "a"],
   by decide, rfl⟩

/-! ## A response for 1001 names -/

theorem stringLess_isTrans : IsTrans String (fun a b => stringLess a b = true) where
  trans _ _ _ h1 h2 := lessChars_trans _ _ _ h1 h2

theorem sorted_of_isAscending : ∀ l : List String, isAscending l = true → l.Sorted keyLE := by
  intro l h
  have hc : List.Chain' (fun a b => stringLess a b = true) l := by
    induction l with
    | nil => exact List.chain'_nil
    | cons a l ih =>
      cases l with
      | nil => exact List.chain'_singleton a
      | cons b rest =>
        simp only [isAscending, Bool.and_eq_true] at h
        exact List.Chain'.cons h.1 (ih h.2)
  haveI := stringLess_isTrans
  have hp := List.chain'_iff_pairwise.mp hc
  exact hp.imp (fun {a b} hab => lessChars_asymm _ _ hab)

set_option maxRecDepth 100000 in
theorem bigSorted_sorted : bigSorted.Sorted keyLE :=
  sorted_of_isAscending bigSorted (by decide)

theorem bigResult_entries :
    bigResult.entries = (List.range 1001).map (fun i => (repoAlias i, some (i : Int))) := by
  simp only [bigResult, bigEntries]

set_option maxRecDepth 100000 in
theorem bigSorted_perm : bigResult.keys.Perm bigSorted := by
  unfold GraphqlResult.keys
  rw [bigResult_entries]
  unfold bigSorted
  simp only [List.map_map]
  have h1 : List.range 1001 = List.range 101 ++ (List.range' 101 899 ++ [1000]) := by decide
  have h2 : (List.range 101 ++ (List.range' 101 899 ++ [1000])).Perm
      (List.range 101 ++ 1000 :: List.range' 101 899) :=
    List.Perm.append_left _ (List.perm_append_singleton 1000 _)
  rw [h1]
  have := h2.map repoAlias
  simpa using this

theorem index_of_mem (m : GraphqlResult) (k : String) (v : Option Int)
    (h : (k, v) ∈ m.entries) : m.index k = v := by
  unfold GraphqlResult.index
  have hl : m.entries.lookup k = some v := by
    have nd := m.nodup
    revert h nd
    generalize m.entries = l
    induction l with
    | nil => intro h; cases h
    | cons e l ih =>
      intro h nd
      obtain ⟨k', v'⟩ := e
      simp only [List.map_cons, List.nodup_cons] at nd
      rcases List.mem_cons.mp h with h | h
      · cases h
        simp [List.lookup]
      · have hne : k ≠ k' := by
          intro e
          apply nd.1
          rw [← e]
          exact List.mem_map.mpr ⟨(k, v), h, rfl⟩
        have : (k == k') = false := by simpa using hne
        simp only [List.lookup, this]
        exact ih h nd.2
  rw [hl]

theorem bigResult_index (i : Nat) (h : i < 1001) :
    bigResult.index (repoAlias i) = some (i : Int) := by
  apply index_of_mem
  rw [bigResult_entries]
  exact List.mem_map.mpr ⟨i, List.mem_range.mpr h, rfl⟩

/-! ## Evaluation at 1001 names -/

/-- C1: evaluation at 1001 names. The response holds, under the alias of every index i below 1001,
the identifier i, and no error. `mapRepoNameToID` returns 1001 identifiers, but the entry at
index 101 is the identifier 1000 stored under the alias of index 1000, not the identifier 101
stored under the alias of index 101: `repo_1000` sorts before `repo_101`. -/
theorem mapRepoNameToID_1001_names_out_of_order :
    ∃ result, (mapRepoNameToID id bigClient "github.com" "acme" bigNames).outcome = .ok result ∧
      result.length = 1001 ∧
      bigResult.index (repoAlias 101) = some 101 ∧ result[101]? = some 1000 := by
  have hnn : ∀ k ∈ bigResult.keys, bigResult.index k ≠ none := by
    intro k hk
    obtain ⟨e, he, rfl⟩ := List.mem_map.mp hk
    rw [bigResult_entries] at he
    obtain ⟨i, hi, rfl⟩ := List.mem_map.mp he
    rw [bigResult_index i (List.mem_range.mp hi)]
    simp
  have hlen : bigSorted.length = bigNames.length := by
    simp only [bigSorted, bigNames, List.length_append, List.length_cons, List.length_map,
      List.length_range, List.length_range']
  have hrun : (mapRepoNameToID id bigClient "github.com" "acme" bigNames).outcome
      = handleResponse "acme" bigNames.length { data := bigResult, err := none } := by
    simp only [mapRepoNameToID, bigClient]
  have hres := handleResponse_sorted_keys "acme" bigNames.length { data := bigResult, err := none }
    bigSorted (by simp only) hlen bigSorted_perm bigSorted_sorted hnn
  rw [← hrun] at hres
  have hn : bigSorted.length = 1001 := by
    simp only [bigSorted, List.length_append, List.length_cons, List.length_map,
      List.length_range, List.length_range']
  refine ⟨_, hres, by rw [List.length_map, hn], bigResult_index 101 (by decide), ?_⟩
  have h101 : bigSorted[101]? = some (repoAlias 1000) := by
    unfold bigSorted
    have hle : (List.map repoAlias (List.range 101)).length ≤ 101 := by
      simp only [List.length_map, List.length_range]
      exact Nat.le_refl _
    rw [List.getElem?_append_right hle]
    simp only [List.length_map, List.length_range, Nat.sub_self, List.getElem?_cons_zero]
  rw [List.getElem?_map, h101]
  simp only [Option.map_some', bigResult_index 1000 (by decide), Option.getD_some]
  rfl

/-! ## Errors of the remote call -/

/-- C2: evaluation at the spec's scenario. For names repo-a, repo-b under owner acme and a
structured error whose NOT_FOUND entry refers to the alias of index 0, `mapRepoNameToID` returns
an error whose text names `acme/repo_000`, the alias, and does not mention the name `repo-a`. -/
theorem mapRepoNameToID_not_found_names_alias :
    (mapRepoNameToID id notFoundClient "github.com" "acme" ["repo-a", "repo-b"]).outcome
      = .error (.errorString "could not find acme/repo_000") ∧
    ¬ mentions "could not find acme/repo_000" "repo-a" := by
  decide

/-- C3: evaluation at two responses without error for names a, b. With the alias of index 0
missing, `mapRepoNameToID` returns the list 99, 0 and a nil error: the identifier of index 1
shifted to the front and a zero placeholder. With the alias of index 0 null, it aborts on a nil
dereference. -/
theorem mapRepoNameToID_unresolved_alias_without_error :
    (mapRepoNameToID id absentClient "github.com" "acme" ["a", "b"]).outcome = .ok [99, 0] ∧
    (mapRepoNameToID id nullClient "github.com" "acme" ["a", "b"]).outcome
      = .panic .nilDereference := by
  decide

/-- C4, as stated, fails: with NOT_FOUND entries for the aliases of both names repo-a and repo-b,
the returned error mentions neither the second alias nor the second name. -/
theorem mapRepoNameToID_second_not_found_unreported :
    ∃ e, (mapRepoNameToID id twoNotFoundClient "github.com" "acme" ["repo-a", "repo-b"]).outcome
        = .error e ∧
      ¬ mentions e.Error "repo_001" ∧ ¬ mentions e.Error "repo-b" :=
  ⟨.errorString "could not find acme/repo_000", by decide, by decide, by decide⟩

theorem notFoundLoop_first (orgName : String) (pre post : List GraphQLError) (ge : GraphQLError)
    (hpre : ∀ e ∈ pre, e.Typ ≠ "NOT_FOUND") (hge : ge.Typ = "NOT_FOUND") :
    notFoundLoop orgName (pre ++ ge :: post) = some (notFoundReturn orgName ge) := by
  induction pre with
  | nil => simp [notFoundLoop, hge]
  | cons e pre ih =>
    have he := hpre e (List.mem_cons_self _ _)
    simp only [List.cons_append, notFoundLoop, he, if_false]
    exact ih (fun x hx => hpre x (List.mem_cons_of_mem _ hx))

theorem notFoundLoop_none (orgName : String) (errs : List GraphQLError)
    (h : ∀ e ∈ errs, e.Typ ≠ "NOT_FOUND") : notFoundLoop orgName errs = none := by
  induction errs with
  | nil => rfl
  | cons e errs ih =>
    have he := h e (List.mem_cons_self _ _)
    simp only [notFoundLoop, he, if_false]
    exact ih (fun x hx => h x (List.mem_cons_of_mem _ hx))

/-- C4, amended: when the remote call returns a structured error, `mapRepoNameToID` returns at
the first entry of type NOT_FOUND: its outcome is the return statement of line 89 for that entry
alone, whatever entries follow it, and it is never a list of identifiers. -/
theorem mapRepoNameToID_returns_at_first_not_found (q : String → String) (client : Client)
    (host orgName : String) (names : List String) (pre post : List GraphQLError)
    (ge : GraphQLError) (text : String)
    (herr : (client.GraphQL host (buildQuery q orgName names)).err
      = some (.graphQLErrorResponse (pre ++ ge :: post) text))
    (hpre : ∀ e ∈ pre, e.Typ ≠ "NOT_FOUND") (hge : ge.Typ = "NOT_FOUND") :
    (mapRepoNameToID q client host orgName names).outcome = notFoundReturn orgName ge ∧
    ∀ ids, (mapRepoNameToID q client host orgName names).outcome ≠ .ok ids := by
  have h : (mapRepoNameToID q client host orgName names).outcome = notFoundReturn orgName ge := by
    simp only [mapRepoNameToID, handleResponse, herr, notFoundLoop_first orgName pre post ge hpre hge]
  refine ⟨h, ?_⟩
  intro ids
  rw [h]
  unfold notFoundReturn
  split <;> simp

theorem mapRepoNameToID_returns_at_first_not_found_witness :
    (mapRepoNameToID id twoNotFoundClient "github.com" "acme" ["repo-a", "repo-b"]).outcome
      = notFoundReturn "acme" ⟨"NOT_FOUND", ["repo_000"]⟩ ∧
    ∀ ids, (mapRepoNameToID id twoNotFoundClient "github.com" "acme"
      ["repo-a", "repo-b"]).outcome ≠ .ok ids :=
  mapRepoNameToID_returns_at_first_not_found id twoNotFoundClient "github.com" "acme"
    ["repo-a", "repo-b"] [] [⟨"NOT_FOUND", ["repo_001"]⟩] ⟨"NOT_FOUND", ["repo_000"]⟩
    "GraphQL error: Could not resolve to a Repository with the name 'acme/repo-a'."
    rfl (by decide) rfl

/-- C9, as stated, fails: for host github.com, owner acme and a transport failure, the text of
the returned error mentions neither the host nor the owner. -/
theorem mapRepoNameToID_error_context_without_host_owner :
    ∃ e, (mapRepoNameToID id transportClient "github.com" "acme" ["repo-a"]).outcome = .error e ∧
      ¬ mentions e.Error "github.com" ∧ ¬ mentions e.Error "acme" :=
  ⟨.wrapError "failed to look up repositories: unexpected EOF" (.api (.other "unexpected EOF")),
    by decide, by decide, by decide⟩

/-- C9, amended: for every host, owner and list of names, and every error of the remote call that
is not a structured error with a NOT_FOUND entry, `mapRepoNameToID` returns no identifiers but an
error that wraps the remote error unchanged (unwrapping yields it) and whose text is
"failed to look up repositories: " followed by the text of the remote error; the added context
names neither host nor owner. -/
theorem mapRepoNameToID_wraps_other_errors (q : String → String) (client : Client)
    (host orgName : String) (names : List String) (e : ApiError)
    (herr : (client.GraphQL host (buildQuery q orgName names)).err = some e)
    (hnf : ∀ errs text, e = .graphQLErrorResponse errs text → ∀ ge ∈ errs, ge.Typ ≠ "NOT_FOUND") :
    ∃ err, (mapRepoNameToID q client host orgName names).outcome = .error err ∧
      err.Unwrap = some (.api e) ∧
      err.Error = "failed to look up repositories: " ++ e.Error := by
  refine ⟨.wrapError ("failed to look up repositories: " ++ e.Error) (.api e), ?_, rfl, rfl⟩
  cases e with
  | graphQLErrorResponse errs text =>
    simp only [mapRepoNameToID, handleResponse, herr,
      notFoundLoop_none orgName errs (hnf errs text rfl)]
  | other text => simp only [mapRepoNameToID, handleResponse, herr]

theorem mapRepoNameToID_wraps_other_errors_witness :
    ∃ err, (mapRepoNameToID id transportClient "github.com" "acme" ["repo-a"]).outcome
        = .error err ∧
      err.Unwrap = some (.api (.other "unexpected EOF")) ∧
      err.Error = "failed to look up repositories: " ++ (ApiError.other "unexpected EOF").Error :=
  mapRepoNameToID_wraps_other_errors id transportClient "github.com" "acme" ["repo-a"]
    (.other "unexpected EOF") rfl (by intro errs text h; cases h)

/-! ## Payloads -/

theorem notFoundLoop_not_ok (orgName : String) (errs : List GraphQLError)
    (out : Outcome (List Int)) (h : notFoundLoop orgName errs = some out) (ids : List Int) :
    out ≠ .ok ids := by
  induction errs with
  | nil => simp [notFoundLoop] at h
  | cons e errs ih =>
    simp only [notFoundLoop] at h
    split_ifs at h
    · simp only [Option.some.injEq] at h
      rw [← h]
      unfold notFoundReturn
      split <;> simp
    · exact ih h

theorem handleResponse_length (orgName : String) (n : Nat) (resp : GraphQLResponse)
    (ids : List Int) (h : handleResponse orgName n resp = .ok ids) : ids.length = n := by
  unfold handleResponse at h
  split at h
  · split at h
    · rename_i out hout
      exact absurd h (notFoundLoop_not_ok orgName _ out hout ids)
    · cases h
  · cases h
  · have := fillResult_length _ _ _ _ _ h
    simpa using this

/-- C5, as stated, fails: for organization acme, visibility "selected" and an empty list of
repository names the resolver succeeds with no identifiers, and the payload submitted has
Visibility "selected" and an empty Repositories list. -/
theorem putOrgSecret_selected_with_empty_repositories :
    ∃ p ∈ payloads (putOrgSecret id emptyClient "github.com" ⟨"k1"⟩
        ⟨"TOKEN", "acme", "selected", []⟩ "cipher").trace,
      ¬ (p.Repositories ≠ [] ↔ p.Visibility = "selected") :=
  ⟨⟨"cipher", "selected", [], "k1"⟩, by decide, by decide⟩

/-- C5, amended: a payload built by `putOrgSecret` has a non-empty Repositories list if and only
if its Visibility is "selected", the organization name is non-empty and the list of repository
names is non-empty (so a non-empty Repositories list implies "selected"); a payload built by
`putRepoSecret` has an empty Visibility and an empty Repositories list. -/
theorem payload_repositories_iff (q : String → String) (client : Client) (host : String)
    (pk : PubKey) (opts : SetOptions) (eValue : String) (repo : Repo) (secretName : String) :
    (∀ p ∈ payloads (putOrgSecret q client host pk opts eValue).trace,
      (p.Repositories ≠ [] ↔
        (p.Visibility = "selected" ∧ opts.OrgName ≠ "" ∧ opts.RepositoryNames ≠ []))) ∧
    (∀ p ∈ payloads (putRepoSecret client pk repo secretName eValue).trace,
      p.Visibility = "" ∧ p.Repositories = []) := by
  constructor
  · intro p hp
    unfold putOrgSecret at hp
    split_ifs at hp with hg
    · simp only at hp
      split at hp
      · rename_i ids hids
        have hlen := handleResponse_length _ _ _ _ hids
        simp only [mapRepoNameToID, putSecret, payloads, List.cons_append, List.nil_append,
          List.mem_singleton] at hp
        subst hp
        simp only [orgPayload, hg.2, Selected, ne_eq, true_and, hg.1, not_false_eq_true]
        rw [← List.length_eq_zero, ← List.length_eq_zero, hlen]
      · simp [mapRepoNameToID, payloads] at hp
      · simp [mapRepoNameToID, payloads] at hp
    · simp only [putSecret, payloads, List.mem_singleton] at hp
      subst hp
      simp only [orgPayload, ne_eq, not_true_eq_false, false_iff, not_and]
      intro hv hn
      exact absurd ⟨hn, hv⟩ hg
  · intro p hp
    simp only [putRepoSecret, putSecret, payloads, List.mem_singleton] at hp
    subst hp
    exact ⟨rfl, rfl⟩

theorem payload_repositories_iff_witness :
    (∀ p ∈ payloads (putOrgSecret id exampleClient "github.com" ⟨"k1"⟩
        ⟨"TOKEN", "acme", "selected", ["a", "b", "c"]⟩ "cipher").trace,
      (p.Repositories ≠ [] ↔
        (p.Visibility = "selected" ∧ "acme" ≠ "" ∧ ["a", "b", "c"] ≠ []))) ∧
    payloads (putOrgSecret id exampleClient "github.com" ⟨"k1"⟩
        ⟨"TOKEN", "acme", "selected", ["a", "b", "c"]⟩ "cipher").trace
      = [⟨"cipher", "selected", [11, 7, 42], "k1"⟩] :=
  ⟨(payload_repositories_iff id exampleClient "github.com" ⟨"k1"⟩
      ⟨"TOKEN", "acme", "selected", ["a", "b", "c"]⟩ "cipher" ⟨"acme", "widgets", "github.com"⟩
      "TOKEN").1, by decide⟩

/-! ## Write requests -/

/-- C6, as stated, fails: for organization acme and secret name TOKEN the write request of
`putOrgSecret` goes to `orgs/acme/actions/secrets/TOKEN`, not to `orgs/acme/secrets/TOKEN`, and
for repository acme/widgets the write request of `putRepoSecret` goes to
`repos/acme/widgets/actions/secrets/TOKEN`, not to `repos/acme/widgets/secrets/TOKEN`. -/
theorem write_path_has_actions_segment :
    writePaths (putOrgSecret id emptyClient "github.com" ⟨"k1"⟩
        ⟨"TOKEN", "acme", "all", []⟩ "cipher").trace = ["orgs/acme/actions/secrets/TOKEN"] ∧
    "orgs/acme/secrets/TOKEN" ∉ writePaths (putOrgSecret id emptyClient "github.com" ⟨"k1"⟩
        ⟨"TOKEN", "acme", "all", []⟩ "cipher").trace ∧
    writePaths (putRepoSecret emptyClient ⟨"k1"⟩ ⟨"acme", "widgets", "github.com"⟩
        "TOKEN" "cipher").trace = ["repos/acme/widgets/actions/secrets/TOKEN"] ∧
    "repos/acme/widgets/secrets/TOKEN" ∉ writePaths (putRepoSecret emptyClient ⟨"k1"⟩
        ⟨"acme", "widgets", "github.com"⟩ "TOKEN" "cipher").trace := by
  decide

/-- C6, amended: for every owner, repository name, organization name and secret name, the only
request of `putRepoSecret` is a PUT to `repos/{owner}/{name}/actions/secrets/{secretName}` on the
repository's host, and every write request of `putOrgSecret` is a PUT to
`orgs/{org}/actions/secrets/{secretName}` on the given host; when no resolution is called for,
that write request is its only request. -/
theorem write_request_method_and_path (q : String → String) (client : Client) (host : String)
    (pk : PubKey) (opts : SetOptions) (eValue : String) (repo : Repo) (secretName : String) :
    (putRepoSecret client pk repo secretName eValue).trace
      = [.rest repo.RepoHost "PUT"
          ("repos/" ++ repo.RepoOwner ++ "/" ++ repo.RepoName ++ "/actions/secrets/" ++ secretName)
          (repoPayload pk eValue)] ∧
    (∀ r ∈ (putOrgSecret q client host pk opts eValue).trace, isWrite r = true →
      ∃ payload, r = .rest host "PUT"
        ("orgs/" ++ opts.OrgName ++ "/actions/secrets/" ++ opts.SecretName) payload) ∧
    (¬ (opts.OrgName ≠ "" ∧ opts.Visibility = Selected) →
      (putOrgSecret q client host pk opts eValue).trace
        = [.rest host "PUT" ("orgs/" ++ opts.OrgName ++ "/actions/secrets/" ++ opts.SecretName)
            (orgPayload pk opts eValue [])]) := by
  refine ⟨?_, ?_, ?_⟩
  · simp only [putRepoSecret, putSecret, repoPath, FullName, String.append_assoc]
  · intro r hr hw
    unfold putOrgSecret at hr
    split_ifs at hr with hg
    · simp only at hr
      split at hr
      · simp only [mapRepoNameToID, putSecret, List.cons_append, List.nil_append,
          List.mem_cons, List.mem_singleton, List.not_mem_nil, or_false] at hr
        rcases hr with hr | hr
        · subst hr
          simp [isWrite] at hw
        · exact ⟨_, hr⟩
      · simp only [mapRepoNameToID, List.mem_singleton] at hr
        subst hr
        simp [isWrite] at hw
      · simp only [mapRepoNameToID, List.mem_singleton] at hr
        subst hr
        simp [isWrite] at hw
    · simp only [putSecret, List.mem_singleton] at hr
      exact ⟨_, hr⟩
  · intro hg
    simp only [putOrgSecret, hg, if_false, putSecret, orgPath]

theorem write_request_method_and_path_witness :
    (putRepoSecret emptyClient ⟨"k1"⟩ ⟨"acme", "widgets", "github.com"⟩ "TOKEN" "cipher").trace
      = [.rest "github.com" "PUT" "repos/acme/widgets/actions/secrets/TOKEN"
          (repoPayload ⟨"k1"⟩ "cipher")] ∧
    (putOrgSecret id emptyClient "github.com" ⟨"k1"⟩ ⟨"TOKEN", "acme", "all", []⟩ "cipher").trace
      = [.rest "github.com" "PUT" "orgs/acme/actions/secrets/TOKEN"
          (orgPayload ⟨"k1"⟩ ⟨"TOKEN", "acme", "all", []⟩ "cipher" [])] :=
  ⟨(write_request_method_and_path id emptyClient "github.com" ⟨"k1"⟩ ⟨"TOKEN", "acme", "all", []⟩
      "cipher" ⟨"acme", "widgets", "github.com"⟩ "TOKEN").1,
   (write_request_method_and_path id emptyClient "github.com" ⟨"k1"⟩ ⟨"TOKEN", "acme", "all", []⟩
      "cipher" ⟨"acme", "widgets", "github.com"⟩ "TOKEN").2.2 (by decide)⟩

theorem putOrgSecret_trace_of_ok (q : String → String) (client : Client) (host : String)
    (pk : PubKey) (opts : SetOptions) (eValue : String) (ids : List Int)
    (horg : opts.OrgName ≠ "") (hvis : opts.Visibility = "selected")
    (hres : (mapRepoNameToID q client host opts.OrgName opts.RepositoryNames).outcome = .ok ids) :
    (putOrgSecret q client host pk opts eValue).trace
      = [.graphQL host (buildQuery q opts.OrgName opts.RepositoryNames),
         .rest host "PUT" (orgPath opts)
           { EncryptedValue := eValue, Visibility := "selected", Repositories := ids,
             KeyID := pk.ID }] := by
  have hg : opts.OrgName ≠ "" ∧ opts.Visibility = Selected := ⟨horg, hvis⟩
  unfold putOrgSecret
  rw [if_pos hg]
  simp only [hres]
  simp only [mapRepoNameToID, putSecret, orgPayload, hvis, List.cons_append, List.nil_append]

/-- C7: for every non-empty organization name, every list of repository names and every
identifier list the resolver returns for them, `putOrgSecret` with visibility "selected" issues
the resolution request and then one PUT to the organization's path whose payload has Visibility
"selected", Repositories equal to the resolver's list, the given encrypted value and the
identifier of the given public key. -/
theorem putOrgSecret_selected_payload (q : String → String) (client : Client) (host : String)
    (pk : PubKey) (opts : SetOptions) (eValue : String) (ids : List Int)
    (horg : opts.OrgName ≠ "") (hvis : opts.Visibility = "selected")
    (hres : (mapRepoNameToID q client host opts.OrgName opts.RepositoryNames).outcome = .ok ids) :
    (putOrgSecret q client host pk opts eValue).trace
      = [.graphQL host (buildQuery q opts.OrgName opts.RepositoryNames),
         .rest host "PUT" (orgPath opts)
           { EncryptedValue := eValue, Visibility := "selected", Repositories := ids,
             KeyID := pk.ID }] :=
  putOrgSecret_trace_of_ok q client host pk opts eValue ids horg hvis hres

theorem putOrgSecret_selected_payload_witness :
    (putOrgSecret id exampleClient "github.com" ⟨"k1"⟩ ⟨"TOKEN", "acme", "selected",
        ["a", "b", "c"]⟩ "cipher").trace
      = [.graphQL "github.com" (buildQuery id "acme" ["a", "b", "c"]),
         .rest "github.com" "PUT" (orgPath ⟨"TOKEN", "acme", "selected", ["a", "b", "c"]⟩)
           { EncryptedValue := "cipher", Visibility := "selected", Repositories := [11, 7, 42],
             KeyID := "k1" }] :=
  putOrgSecret_selected_payload id exampleClient "github.com" ⟨"k1"⟩
    ⟨"TOKEN", "acme", "selected", ["a", "b", "c"]⟩ "cipher" [11, 7, 42]
    (by decide) rfl (by decide)

/-! ## Traces -/

/-- C8, as stated, fails: with visibility "selected" and an empty organization name,
`putOrgSecret` issues no resolution request (and one write request). -/
theorem putOrgSecret_selected_without_org_skips_resolution :
    (putOrgSecret id exampleClient "github.com" ⟨"k1"⟩
      ⟨"TOKEN", "", "selected", ["a", "b", "c"]⟩ "cipher").trace.countP isResolution = 0 ∧
    (putOrgSecret id exampleClient "github.com" ⟨"k1"⟩
      ⟨"TOKEN", "", "selected", ["a", "b", "c"]⟩ "cipher").trace.countP isWrite = 1 := by
  decide

/-- C8, amended: the trace of `putRepoSecret` is exactly one write request. The trace of
`putOrgSecret` is exactly one write request when the visibility is not "selected" or the
organization name is empty. With visibility "selected" and a non-empty organization name it is
exactly one resolution request, whatever the repository names, followed by exactly one write
request when the resolver returns identifiers and by nothing when it does not. -/
theorem publish_trace_shape (q : String → String) (client : Client) (host : String)
    (pk : PubKey) (opts : SetOptions) (eValue : String) (repo : Repo) (secretName : String) :
    (∃ path payload, (putRepoSecret client pk repo secretName eValue).trace
      = [.rest repo.RepoHost "PUT" path payload]) ∧
    (¬ (opts.OrgName ≠ "" ∧ opts.Visibility = "selected") →
      ∃ path payload, (putOrgSecret q client host pk opts eValue).trace
        = [.rest host "PUT" path payload]) ∧
    (opts.OrgName ≠ "" → opts.Visibility = "selected" →
      ∃ query,
        (∀ ids, (mapRepoNameToID q client host opts.OrgName opts.RepositoryNames).outcome
            = .ok ids →
          ∃ path payload, (putOrgSecret q client host pk opts eValue).trace
            = [.graphQL host query, .rest host "PUT" path payload]) ∧
        ((∀ ids, (mapRepoNameToID q client host opts.OrgName opts.RepositoryNames).outcome
            ≠ .ok ids) →
          (putOrgSecret q client host pk opts eValue).trace = [.graphQL host query])) := by
  refine ⟨⟨_, _, rfl⟩, ?_, ?_⟩
  · intro hg
    have hg' : ¬ (opts.OrgName ≠ "" ∧ opts.Visibility = Selected) := hg
    refine ⟨orgPath opts, orgPayload pk opts eValue [], ?_⟩
    unfold putOrgSecret
    rw [if_neg hg']
    rfl
  · intro horg hvis
    have hg : opts.OrgName ≠ "" ∧ opts.Visibility = Selected := ⟨horg, hvis⟩
    refine ⟨buildQuery q opts.OrgName opts.RepositoryNames, ?_, ?_⟩
    · intro ids hres
      exact ⟨_, _, putOrgSecret_trace_of_ok q client host pk opts eValue ids horg hvis hres⟩
    · intro hno
      unfold putOrgSecret
      rw [if_pos hg]
      simp only
      split
      · rename_i ids hids
        exact absurd hids (hno ids)
      · rfl
      · rfl

theorem publish_trace_shape_witness :
    (∃ path payload, (putOrgSecret id exampleClient "github.com" ⟨"k1"⟩
        ⟨"TOKEN", "acme", "all", ["a", "b", "c"]⟩ "cipher").trace
      = [.rest "github.com" "PUT" path payload]) ∧
    (∃ query path payload, (putOrgSecret id exampleClient "github.com" ⟨"k1"⟩
        ⟨"TOKEN", "acme", "selected", ["a", "b", "c"]⟩ "cipher").trace
      = [.graphQL "github.com" query, .rest "github.com" "PUT" path payload]) ∧
    (∃ query, (putOrgSecret id notFoundClient "github.com" ⟨"k1"⟩
        ⟨"TOKEN", "acme", "selected", ["repo-a", "repo-b"]⟩ "cipher").trace
      = [.graphQL "github.com" query]) := by
  refine ⟨(publish_trace_shape id exampleClient "github.com" ⟨"k1"⟩
      ⟨"TOKEN", "acme", "all", ["a", "b", "c"]⟩ "cipher" ⟨"acme", "widgets", "github.com"⟩
      "TOKEN").2.1 (by decide), ?_, ?_⟩
  · obtain ⟨query, hok, _⟩ := (publish_trace_shape id exampleClient "github.com" ⟨"k1"⟩
      ⟨"TOKEN", "acme", "selected", ["a", "b", "c"]⟩ "cipher"
      ⟨"acme", "widgets", "github.com"⟩ "TOKEN").2.2 (by decide) rfl
    exact ⟨query, hok [11, 7, 42] (by decide)⟩
  · obtain ⟨query, _, hfail⟩ := (publish_trace_shape id notFoundClient "github.com" ⟨"k1"⟩
      ⟨"TOKEN", "acme", "selected", ["repo-a", "repo-b"]⟩ "cipher"
      ⟨"acme", "widgets", "github.com"⟩ "TOKEN").2.2 (by decide) rfl
    refine ⟨query, hfail ?_⟩
    intro ids h
    have h2 : (mapRepoNameToID id notFoundClient "github.com" "acme"
        ["repo-a", "repo-b"]).outcome = .error (.errorString "could not find acme/repo_000") := by
      decide
    rw [h2] at h
    cases h

end SecretSet
